import Mathlib

/-
Shallow embedding of the hybrid relevance-and-answer-resolution core of the
RAG_Oncology repository:
  * src/src/relevance_check/relevance_check.py
      (QueryStructure, CacheEntry, HybridRelevanceChecker._structure_query,
       HybridRelevanceChecker.llm_judge, HybridRelevanceChecker.check_match)
  * src/cancer_system_ppp-version0/.../src/answer_generator/answer_generator.py
      (AnswerGenerator.generate)
Floats are modelled as rationals; external calls (the generative model, the
search engine, the embedding model) are modelled as explicit outcome
parameters, with `none` standing for a raised exception at that call site.
-/

namespace RagOncology

/-- A judgment dict as produced by the LLM judge: fields `judgment`,
`confidence`, `reason`. Also used for the raw (pre-clamping) parsed model
response. -/
structure Judgment where
  judgment : String
  confidence : ℚ
  reason : String
  deriving DecidableEq

/-- `CacheEntry` from relevance_check.py: a stored judgment and the time it
was stored. -/
structure CacheEntry where
  judgment : Judgment
  timestamp : ℚ
  deriving DecidableEq

/-- `QueryStructure` from relevance_check.py. `filters` is modelled as an
association list of boolean-valued entries (the only values the code ever
puts there). -/
structure QueryStructure where
  main_topic : String
  explanation_level : String
  target_audience : String
  filters : List (String × Bool)
  deriving DecidableEq

/-- Python `needle` being a prefix of the character list. -/
def isPrefB : List Char → List Char → Bool
  | [], _ => true
  | _ :: _, [] => false
  | n :: ns, c :: hs => n == c && isPrefB ns hs

/-- Python substring test `needle in hay` over character lists. -/
def containsSub (needle : List Char) : List Char → Bool
  | [] => isPrefB needle []
  | c :: hs => isPrefB needle (c :: hs) || containsSub needle hs

/-- Python `sub in hay` on strings. -/
def strContains (hay sub : String) : Bool :=
  containsSub sub.data hay.data

/-- Python `str.lower()` on one character (the code only ever matches ASCII
phrases, so ASCII lowering is the relevant fragment). -/
def lowerChar (c : Char) : Char :=
  if 'A' ≤ c ∧ c ≤ 'Z' then Char.ofNat (c.toNat + 32) else c

/-- Python `str.lower()`. -/
def lowerStr (s : String) : String := String.mk (s.data.map lowerChar)

/-- Python whitespace for `str.strip()`. -/
def isSpaceB (c : Char) : Bool :=
  c == ' ' || c == '\t' || c == '\n' || c == '\r' || c == Char.ofNat 11 || c == Char.ofNat 12

/-- Python `str.strip()` over a character list. -/
def stripChars (l : List Char) : List Char :=
  ((l.dropWhile isSpaceB).reverse.dropWhile isSpaceB).reverse

/-- Python `str.strip()`. -/
def stripStr (s : String) : String := String.mk (stripChars s.data)

/-- The part of `hay` before the first occurrence of `sep`; the whole list
when `sep` does not occur. This is Python `hay.split(sep)[0]` for a
non-empty separator. -/
def beforeFirst (sep : List Char) : List Char → List Char
  | [] => []
  | c :: hs => if isPrefB sep (c :: hs) then [] else c :: beforeFirst sep hs

/-- Python `hay.split(sep)[0].strip()` as used by the structuring fallback. -/
def splitHeadStrip (hay sep : String) : String :=
  stripStr (String.mk (beforeFirst sep.data hay.data))

/-- The `QueryStructure.__init__` constructor: `filters or {}` maps an absent
or empty filters argument to the empty mapping. -/
def QueryStructure.make (mt el ta : String) (fs : Option (List (String × Bool))) :
    QueryStructure :=
  ⟨mt, el, ta, match fs with | none => [] | some l => if l.isEmpty then [] else l⟩

/-- The parsed JSON object of a successful structuring response: each field
is independently present or absent. -/
structure JsonObj where
  main_topic : Option String
  explanation_level : Option String
  target_audience : Option String
  filters : Option (List (String × Bool))
  deriving DecidableEq

/-- Outcome of the model call + fence stripping + JSON parsing inside
`_structure_query`: the model call raised, the stripped text was empty, JSON
decoding raised, or a JSON object was parsed. -/
inductive StructOutcome where
  | exn
  | emptyText
  | parseFail
  | parsed (obj : JsonObj)
  deriving DecidableEq

/-- The heuristic fallback of `_structure_query` (lines 88-96 and 100-108 of
relevance_check.py), embedded verbatim: the needle "like I'm 5" is matched
against the lowered query, and the topic split is on the original query. -/
def childFallback (query : String) : QueryStructure :=
  if strContains (lowerStr query) "like I'm 5" ||
     strContains (lowerStr query) "explain to a child" then
    QueryStructure.make
      (if strContains (lowerStr query) "like I'm 5" then splitHeadStrip query "like I'm 5"
       else splitHeadStrip query "explain to a child")
      "child-friendly" "child"
      (some [("simplified_language", true), ("avoid_technical_terms", true)])
  else QueryStructure.make query "standard" "general" none

/-- `HybridRelevanceChecker._structure_query`, parameterised by the outcome
of the model call / parsing. -/
def structure_query (query : String) : StructOutcome → QueryStructure
  | .exn => childFallback query
  | .emptyText => QueryStructure.make query "standard" "general" none
  | .parseFail => childFallback query
  | .parsed obj =>
      QueryStructure.make (obj.main_topic.getD query) (obj.explanation_level.getD "standard")
        (obj.target_audience.getD "general") (some (obj.filters.getD []))

/-- `cache_key = f"{query}|{answer}"` in `llm_judge`. -/
def cacheKey (query answer : String) : String := query ++ "|" ++ answer

/-- `self.cache_ttl = 3600`. -/
def cache_ttl : ℚ := 3600

/-- `self.judge_threshold = 0.7`. -/
def judge_threshold : ℚ := 7/10

/-- `self.weights['llm_judge'] = 0.5`. -/
def weight_llm_judge : ℚ := 1/2

/-- `self.weights['similarity'] = 0.3`. -/
def weight_similarity : ℚ := 3/10

/-- The judgment cache `self._judgment_cache`, a dict modelled as an
association list with at most one binding per key. -/
abbrev Cache := List (String × CacheEntry)

/-- The purge loop of `llm_judge`: delete every entry with
`now - timestamp > ttl`, keeping the rest. -/
def purgeExpired (now : ℚ) (c : Cache) : Cache :=
  c.filter (fun p => decide (now - p.2.timestamp ≤ cache_ttl))

/-- Dict lookup on the association-list cache. -/
def findEntry (k : String) : Cache → Option CacheEntry
  | [] => none
  | (k₂, e) :: t => if k₂ = k then some e else findEntry k t

/-- Dict store `cache[key] = entry`: replace the binding if present,
append otherwise. -/
def insertEntry (k : String) (e : CacheEntry) : Cache → Cache
  | [] => [(k, e)]
  | (k₂, e₂) :: t => if k₂ = k then (k, e) :: t else (k₂, e₂) :: insertEntry k e t

/-- The mutable state read and written by `llm_judge`. -/
structure JudgeState where
  cache : Cache
  deriving DecidableEq

/-- Result of one `llm_judge` call: the new state, the returned judgment and
whether the generative model was invoked on this call. -/
structure JudgeResult where
  state : JudgeState
  judgment : Judgment
  invokedModel : Bool
  deriving DecidableEq

/-- Lines 131-133 of relevance_check.py: keep an in-range confidence, clamp
an out-of-range one into [0,1]. -/
def normalizeConfidence (c : ℚ) : ℚ :=
  if 0 ≤ c ∧ c ≤ 1 then c else max 0 (min 1 c)

/-- The fixed fallback judgment of the `except` branch of `llm_judge`. -/
def errorJudgment (msg : String) : Judgment :=
  ⟨"irrelevant", 0, "Error in judgment: " ++ msg⟩

/-- `HybridRelevanceChecker.llm_judge`. `modelResponse` is the parsed model
response (`none` when the call, the JSON parse or the field access raised,
with `errMsg` the exception text). Purge, then lookup; on a hit return the
stored judgment without invoking the model; on a miss invoke the model and
either store-and-return the normalized judgment or return the error
fallback without storing it. -/
def llm_judge (st : JudgeState) (now : ℚ) (query answer : String)
    (modelResponse : Option Judgment) (errMsg : String) : JudgeResult :=
  let key := cacheKey query answer
  let cache₁ := purgeExpired now st.cache
  match findEntry key cache₁ with
  | some e => ⟨⟨cache₁⟩, e.judgment, false⟩
  | none =>
    match modelResponse with
    | some raw =>
        let j : Judgment := ⟨raw.judgment, normalizeConfidence raw.confidence, raw.reason⟩
        ⟨⟨insertEntry key ⟨j, now⟩ cache₁⟩, j, true⟩
    | none => ⟨⟨cache₁⟩, errorJudgment errMsg, true⟩

/-- One `search_qa` hit: a (question, answer) pair. -/
structure Candidate where
  question : String
  answer : String
  deriving DecidableEq

/-- The `best_eval` record of `check_match`. -/
structure BestEval where
  candidate : Candidate
  llm_judge : Judgment
  similarity : ℚ
  combined_score : ℚ
  deriving DecidableEq

/-- The fixed marker phrases of the child-friendly filter. -/
def childMarkers : List String := ["simple", "easy to understand", "like a", "similar to"]

/-- `any(term in r.get('answer','').lower() for term in [...])`. -/
def hasChildMarker (answer : String) : Bool :=
  childMarkers.any (fun t => strContains (lowerStr answer) t)

/-- A retrieved candidate together with its per-candidate evaluation
outcome: `none` models the per-candidate `except` (similarity or judge
raised, the candidate is skipped), `some (similarity, judgment)` a
successful evaluation. -/
abbrev EvalInput := Candidate × Option (ℚ × Judgment)

/-- The `best_eval` record built for one successfully evaluated candidate,
with `score = judgment.confidence * 0.5 + similarity * 0.3`. -/
def mkEval (c : Candidate) (sim : ℚ) (j : Judgment) : BestEval :=
  ⟨c, j, sim, j.confidence * weight_llm_judge + sim * weight_similarity⟩

/-- The selection loop of `check_match`: running best and running
`best_score`, updated only on strict `score > best_score`. -/
def selectLoop : List EvalInput → Option BestEval → ℚ → Option BestEval
  | [], best, _ => best
  | (_, none) :: rest, best, bs => selectLoop rest best bs
  | (c, some (sim, j)) :: rest, best, bs =>
      let e := mkEval c sim j
      if bs < e.combined_score then selectLoop rest (some e) e.combined_score
      else selectLoop rest best bs

/-- The whole selection pass, started from `best_eval = None`,
`best_score = -1`. -/
def selectBest (l : List EvalInput) : Option BestEval :=
  selectLoop l none (-1)

/-- The successfully evaluated candidates of the loop, in order, as
`best_eval`-shaped records. -/
def succEvals : List EvalInput → List BestEval
  | [] => []
  | (_, none) :: rest => succEvals rest
  | (c, some (sim, j)) :: rest => mkEval c sim j :: succEvals rest

/-- The `match_data` dict of a classified `check_match` result. -/
structure MatchData where
  answer : String
  question : String
  confidence : ℚ
  metrics_llm_judge : Judgment
  metrics_similarity : ℚ
  deriving DecidableEq

/-- A `check_match` return value: a status string and an optional
`match_data`. -/
structure CheckResult where
  status : String
  match_data : Option MatchData
  deriving DecidableEq

/-- Lines 195-201 of relevance_check.py: the tri-state classification of the
best evaluation. -/
def classify (be : BestEval) : String :=
  if be.llm_judge.judgment = "relevant" ∧ judge_threshold ≤ be.llm_judge.confidence then
    "relevant"
  else if 3/5 ≤ be.combined_score then "partial"
  else "no_match"

/-- The candidate list actually scored: the child-friendly marker filter is
applied when the structured query asks for child-friendly output. -/
def effectiveResults (qs : QueryStructure) (rag : List EvalInput) : List EvalInput :=
  if qs.explanation_level = "child-friendly" then rag.filter (fun p => hasChildMarker p.1.answer)
  else rag

/-- The `match_data` dict built from the best evaluation. -/
def mkMatchData (be : BestEval) : MatchData :=
  ⟨be.candidate.answer, be.candidate.question, be.combined_score, be.llm_judge, be.similarity⟩

/-- `HybridRelevanceChecker.check_match` after structuring and retrieval:
`rag` is the retrieved candidate list paired with each candidate's
evaluation outcome. Empty retrieval exits early; then the child filter, the
selection loop, the classification, and the final dict — which carries
`match_data` whenever a best evaluation exists, whatever the status. -/
def check_match_core (qs : QueryStructure) (rag : List EvalInput) : CheckResult :=
  if rag.isEmpty then ⟨"no_match", none⟩
  else
    match selectBest (effectiveResults qs rag) with
    | none => ⟨"no_match", none⟩
    | some be => ⟨classify be, some (mkMatchData be)⟩

/-- `check_match` with its top-level `except`: `topLevelOk = false` models an
exception raised by structuring or retrieval, degraded to `no_match`. -/
def check_match (topLevelOk : Bool) (qs : QueryStructure) (rag : List EvalInput) : CheckResult :=
  if topLevelOk then check_match_core qs rag else ⟨"no_match", none⟩

/-- A return value of `AnswerGenerator.generate`. `metrics` is present only
on the verified-answer path. -/
structure GenResult where
  answer : String
  source : String
  confidence : ℚ
  metrics : Option (Judgment × ℚ)
  deriving DecidableEq

/-- The fixed apology string of the terminal fallback. -/
def apologyMessage : String :=
  "I'm sorry, I couldn't generate a response. Please try again later."

/-- The `try` block of `generate`: a successful generative call yields an
`llm_generated` answer with confidence 0.7 on the partial path and 0.5
otherwise; a failed call yields the fixed error fallback. -/
def generateFallback (status : String) (llmResponse : Option String) : GenResult :=
  match llmResponse with
  | some text => ⟨text, "llm_generated", if status = "partial" then 7/10 else 1/2, none⟩
  | none => ⟨apologyMessage, "error", 0, none⟩

/-- `AnswerGenerator.generate` given the resolver result and the outcome of
the generative call (`none` = the call raised). The accesses
`match_data['answer']` on the relevant and partial paths stand outside any
`try`, so a missing `match_data` there would raise: that is the `none`
result. -/
def generate (rr : CheckResult) (llmResponse : Option String) : Option GenResult :=
  if rr.status = "relevant" then
    rr.match_data.map (fun md =>
      ⟨md.answer, "verified_answer", md.confidence, some (md.metrics_llm_judge, md.metrics_similarity)⟩)
  else if rr.status = "partial" then
    match rr.match_data with
    | none => none
    | some _ => some (generateFallback rr.status llmResponse)
  else some (generateFallback rr.status llmResponse)

/-- Specification vocabulary (not from the source): the first element of an
evaluation list whose combined score reaches `s`. Used to express the
first-encountered-maximum selection property. -/
def firstAtLeast (s : ℚ) : List BestEval → Option BestEval
  | [] => none
  | e :: t => if s ≤ e.combined_score then some e else firstAtLeast s t

lemma findEntry_mem : ∀ (c : Cache) (k : String) (e : CacheEntry),
    findEntry k c = some e → (k, e) ∈ c := by
  intro c
  induction c with
  | nil => intro k e h; simp [findEntry] at h
  | cons p t ih =>
      intro k e h
      obtain ⟨k₂, e₂⟩ := p
      simp only [findEntry] at h
      split at h
      · next heq =>
          obtain rfl := heq
          obtain rfl : e₂ = e := by injection h
          exact List.mem_cons_self _ _
      · exact List.mem_cons_of_mem _ (ih k e h)

lemma findEntry_filter_none (c : Cache) (k : String) (p : String × CacheEntry → Bool)
    (h : findEntry k c = none) : findEntry k (c.filter p) = none := by
  induction c with
  | nil => simp [findEntry]
  | cons q t ih =>
      obtain ⟨k₂, e₂⟩ := q
      simp only [findEntry] at h
      split at h
      · exact absurd h (by simp)
      · next hne =>
          simp only [List.filter_cons]
          split
          · simpa [findEntry, hne] using ih h
          · exact ih h

lemma insertEntry_of_none (c : Cache) (k : String) (e : CacheEntry)
    (h : findEntry k c = none) : insertEntry k e c = c ++ [(k, e)] := by
  induction c with
  | nil => simp [insertEntry]
  | cons q t ih =>
      obtain ⟨k₂, e₂⟩ := q
      simp only [findEntry] at h
      split at h
      · exact absurd h (by simp)
      · next hne => simp only [insertEntry, if_neg hne, List.cons_append, ih h]

lemma findEntry_append_of_none (c : Cache) (k : String) (h : findEntry k c = none)
    (c₂ : Cache) : findEntry k (c ++ c₂) = findEntry k c₂ := by
  induction c with
  | nil => simp
  | cons q t ih =>
      obtain ⟨k₂, e₂⟩ := q
      simp only [findEntry] at h
      split at h
      · exact absurd h (by simp)
      · next hne => simpa [findEntry, hne] using ih h

lemma mem_insertEntry (c : Cache) (k : String) (e : CacheEntry) :
    ∀ p ∈ insertEntry k e c, p = (k, e) ∨ p ∈ c := by
  induction c with
  | nil => intro p hp; exact Or.inl (by simpa [insertEntry] using hp)
  | cons q t ih =>
      obtain ⟨k₂, e₂⟩ := q
      intro p hp
      simp only [insertEntry] at hp
      split at hp
      · rcases List.mem_cons.mp hp with h | h
        · exact Or.inl h
        · exact Or.inr (List.mem_cons_of_mem _ h)
      · rcases List.mem_cons.mp hp with h | h
        · exact Or.inr (h ▸ List.mem_cons_self _ _)
        · rcases ih p h with h₂ | h₂
          · exact Or.inl h₂
          · exact Or.inr (List.mem_cons_of_mem _ h₂)

/-- Every entry of the state coming out of an `llm_judge` call is fresh at
call time: the purge ran before anything else, and a stored entry carries
the current timestamp. -/
lemma llm_judge_state_fresh (st : JudgeState) (now : ℚ) (q a : String)
    (modelResponse : Option Judgment) (errMsg : String) :
    ∀ p ∈ (llm_judge st now q a modelResponse errMsg).state.cache,
      now - p.2.timestamp ≤ cache_ttl := by
  have httl : (0 : ℚ) ≤ cache_ttl := by norm_num [cache_ttl]
  intro p hp
  simp only [llm_judge] at hp
  split at hp
  · have := (List.mem_filter.mp hp).2
    exact of_decide_eq_true this
  · split at hp
    · rcases mem_insertEntry _ _ _ p hp with h | h
      · subst h; simpa using httl
      · exact of_decide_eq_true (List.mem_filter.mp h).2
    · exact of_decide_eq_true (List.mem_filter.mp hp).2

/-- C5 (code bug): the heuristic fallback of `_structure_query` never fires
on the phrase "like I'm 5", because the needle is matched with its capital I
against the lowered query; and when a mixed-case "explain to a child" does
fire the condition, the topic split on the original query fails, leaving
the whole query as the topic. Both runs contradict the documented
case-insensitive extraction. -/
theorem structure_query_child_phrase_dead :
    structure_query "What is cancer like I'm 5" .parseFail =
      QueryStructure.make "What is cancer like I'm 5" "standard" "general" none ∧
    (structure_query "EXPLAIN TO A CHILD what is cancer" .parseFail).explanation_level =
      "child-friendly" ∧
    (structure_query "EXPLAIN TO A CHILD what is cancer" .parseFail).main_topic =
      "EXPLAIN TO A CHILD what is cancer" := by
  decide

/-- C6 counterexample: a fully evaluated candidate scoring below every
threshold yields status `no_match`, yet the returned result still carries
the best candidate's `match_data` — it is not `None`. -/
theorem check_match_no_match_with_match_data_cex :
    (check_match_core (QueryStructure.make "q" "standard" "general" none)
      [(⟨"Q1", "A1"⟩, some (0, ⟨"irrelevant", 0, "r"⟩))]).status = "no_match" ∧
    (check_match_core (QueryStructure.make "q" "standard" "general" none)
      [(⟨"Q1", "A1"⟩, some (0, ⟨"irrelevant", 0, "r"⟩))]).match_data.isSome = true := by
  constructor <;>
  · simp only [check_match_core, selectBest, selectLoop, effectiveResults, mkEval, classify,
      QueryStructure.make, weight_llm_judge, weight_similarity, judge_threshold]
    norm_num

/-- C6 amended: `match_data` is `None` exactly when no best evaluation
exists (empty retrieval, empty post-filter list, or every candidate's
evaluation raised); whenever a best candidate exists the `match_data`
record is returned whatever the status, `no_match` included. -/
theorem check_match_match_data_iff (qs : QueryStructure) (rag : List EvalInput) :
    (check_match_core qs rag).match_data = none ↔
      selectBest (effectiveResults qs rag) = none := by
  cases rag with
  | nil =>
      simp [check_match_core, effectiveResults, selectBest, selectLoop]
  | cons p t =>
      simp only [check_match_core, List.isEmpty_cons, Bool.false_eq_true, if_false]
      rcases hsel : selectBest (effectiveResults qs (p :: t)) with _ | be <;> simp [hsel]

/-- C1: whenever the resolver has a best evaluated candidate, the returned
status is the tri-state classification of that candidate: `relevant`
exactly when its judge verdict is `relevant` with judge confidence at least
0.7; otherwise `partial` exactly when its combined score is at least 0.6;
otherwise `no_match`. -/
theorem check_match_status_classification (qs : QueryStructure) (rag : List EvalInput)
    (be : BestEval) (h : selectBest (effectiveResults qs rag) = some be) :
    (check_match_core qs rag).status = classify be ∧
    (classify be = "relevant" ↔
      (be.llm_judge.judgment = "relevant" ∧ judge_threshold ≤ be.llm_judge.confidence)) ∧
    (¬(be.llm_judge.judgment = "relevant" ∧ judge_threshold ≤ be.llm_judge.confidence) →
      (classify be = "partial" ↔ 3/5 ≤ be.combined_score)) ∧
    (¬(be.llm_judge.judgment = "relevant" ∧ judge_threshold ≤ be.llm_judge.confidence) →
      ¬(3/5 ≤ be.combined_score) → classify be = "no_match") := by
  refine ⟨?_, ?_, ?_, ?_⟩
  · cases rag with
    | nil => simp [effectiveResults, selectBest, selectLoop] at h
    | cons p t =>
        simp only [check_match_core, List.isEmpty_cons, Bool.false_eq_true, if_false, h]
  · constructor
    · intro hrel
      by_contra hc
      simp only [classify, if_neg hc] at hrel
      split at hrel <;> exact absurd hrel (by decide)
    · intro hc
      simp [classify, hc]
  · intro hc
    constructor
    · intro hpar
      by_contra hs
      simp only [classify, if_neg hc, if_neg hs] at hpar
      exact absurd hpar (by decide)
    · intro hs
      simp [classify, hc, hs]
  · intro hc hs
    simp [classify, hc, hs]

/-- C1 witness: one candidate with judge verdict `irrelevant`, judge
confidence 0.6 and similarity 1, giving a combined score of exactly 0.6,
classified `partial`. -/
theorem check_match_status_classification_witness :
    selectBest (effectiveResults (QueryStructure.make "q" "standard" "general" none)
        [(⟨"Q", "A"⟩, some (1, ⟨"irrelevant", 3/5, "r"⟩))]) =
      some (mkEval ⟨"Q", "A"⟩ 1 ⟨"irrelevant", 3/5, "r"⟩) ∧
    ((check_match_core (QueryStructure.make "q" "standard" "general" none)
        [(⟨"Q", "A"⟩, some (1, ⟨"irrelevant", 3/5, "r"⟩))]).status =
      classify (mkEval ⟨"Q", "A"⟩ 1 ⟨"irrelevant", 3/5, "r"⟩) ∧
    (classify (mkEval ⟨"Q", "A"⟩ 1 ⟨"irrelevant", 3/5, "r"⟩) = "relevant" ↔
      ((mkEval ⟨"Q", "A"⟩ 1 ⟨"irrelevant", 3/5, "r"⟩).llm_judge.judgment = "relevant" ∧
        judge_threshold ≤ (mkEval ⟨"Q", "A"⟩ 1 ⟨"irrelevant", 3/5, "r"⟩).llm_judge.confidence)) ∧
    (¬((mkEval ⟨"Q", "A"⟩ 1 ⟨"irrelevant", 3/5, "r"⟩).llm_judge.judgment = "relevant" ∧
        judge_threshold ≤ (mkEval ⟨"Q", "A"⟩ 1 ⟨"irrelevant", 3/5, "r"⟩).llm_judge.confidence) →
      (classify (mkEval ⟨"Q", "A"⟩ 1 ⟨"irrelevant", 3/5, "r"⟩) = "partial" ↔
        3/5 ≤ (mkEval ⟨"Q", "A"⟩ 1 ⟨"irrelevant", 3/5, "r"⟩).combined_score)) ∧
    (¬((mkEval ⟨"Q", "A"⟩ 1 ⟨"irrelevant", 3/5, "r"⟩).llm_judge.judgment = "relevant" ∧
        judge_threshold ≤ (mkEval ⟨"Q", "A"⟩ 1 ⟨"irrelevant", 3/5, "r"⟩).llm_judge.confidence) →
      ¬(3/5 ≤ (mkEval ⟨"Q", "A"⟩ 1 ⟨"irrelevant", 3/5, "r"⟩).combined_score) →
      classify (mkEval ⟨"Q", "A"⟩ 1 ⟨"irrelevant", 3/5, "r"⟩) = "no_match")) := by
  have h : selectBest (effectiveResults (QueryStructure.make "q" "standard" "general" none)
        [(⟨"Q", "A"⟩, some (1, ⟨"irrelevant", 3/5, "r"⟩))]) =
      some (mkEval ⟨"Q", "A"⟩ 1 ⟨"irrelevant", 3/5, "r"⟩) := by
    simp only [effectiveResults, selectBest, selectLoop, mkEval, weight_llm_judge,
      weight_similarity, QueryStructure.make]
    norm_num
  exact ⟨h, check_match_status_classification _ _ _ h⟩

/-- C10: on the parse-success path of `_structure_query`, each JSON field is
defaulted independently of the others (`main_topic` to the raw query,
`explanation_level` to "standard", `target_audience` to "general",
`filters` to the empty mapping), a present field is taken verbatim, and
the result is exactly the constructor applied to those values: the
child-friendly heuristic plays no part on this path. -/
theorem structure_query_parsed_defaults (q : String) (obj : JsonObj) :
    structure_query q (.parsed obj) =
      QueryStructure.make (obj.main_topic.getD q) (obj.explanation_level.getD "standard")
        (obj.target_audience.getD "general") (some (obj.filters.getD [])) ∧
    (obj.main_topic = none → (structure_query q (.parsed obj)).main_topic = q) ∧
    (∀ v, obj.main_topic = some v → (structure_query q (.parsed obj)).main_topic = v) ∧
    (obj.explanation_level = none →
      (structure_query q (.parsed obj)).explanation_level = "standard") ∧
    (∀ v, obj.explanation_level = some v →
      (structure_query q (.parsed obj)).explanation_level = v) ∧
    (obj.target_audience = none → (structure_query q (.parsed obj)).target_audience = "general") ∧
    (∀ v, obj.target_audience = some v → (structure_query q (.parsed obj)).target_audience = v) ∧
    (obj.filters = none → (structure_query q (.parsed obj)).filters = []) ∧
    (∀ v, obj.filters = some v → (structure_query q (.parsed obj)).filters = v) := by
  refine ⟨rfl, ?_, ?_, ?_, ?_, ?_, ?_, ?_, ?_⟩
  · intro hv; simp [structure_query, QueryStructure.make, hv]
  · intro v hv; simp [structure_query, QueryStructure.make, hv]
  · intro hv; simp [structure_query, QueryStructure.make, hv]
  · intro v hv; simp [structure_query, QueryStructure.make, hv]
  · intro hv; simp [structure_query, QueryStructure.make, hv]
  · intro v hv; simp [structure_query, QueryStructure.make, hv]
  · intro hv; simp [structure_query, QueryStructure.make, hv]
  · intro v hv
    cases v with
    | nil => simp [structure_query, QueryStructure.make, hv]
    | cons b l => simp [structure_query, QueryStructure.make, hv]

/-- C10 witness: an object carrying only `explanation_level` keeps that
field and defaults the other three. -/
theorem structure_query_parsed_defaults_witness :
    structure_query "q" (.parsed ⟨none, some "detailed", none, none⟩) =
      QueryStructure.make ((none : Option String).getD "q")
        ((some "detailed").getD "standard") ((none : Option String).getD "general")
        (some ((none : Option (List (String × Bool))).getD [])) ∧
    ((none : Option String) = none →
      (structure_query "q" (.parsed ⟨none, some "detailed", none, none⟩)).main_topic = "q") ∧
    (∀ v, (none : Option String) = some v →
      (structure_query "q" (.parsed ⟨none, some "detailed", none, none⟩)).main_topic = v) ∧
    ((some "detailed" = none) →
      (structure_query "q" (.parsed ⟨none, some "detailed", none, none⟩)).explanation_level =
        "standard") ∧
    (∀ v, some "detailed" = some v →
      (structure_query "q" (.parsed ⟨none, some "detailed", none, none⟩)).explanation_level = v) ∧
    ((none : Option String) = none →
      (structure_query "q" (.parsed ⟨none, some "detailed", none, none⟩)).target_audience =
        "general") ∧
    (∀ v, (none : Option String) = some v →
      (structure_query "q" (.parsed ⟨none, some "detailed", none, none⟩)).target_audience = v) ∧
    ((none : Option (List (String × Bool))) = none →
      (structure_query "q" (.parsed ⟨none, some "detailed", none, none⟩)).filters = []) ∧
    (∀ v, (none : Option (List (String × Bool))) = some v →
      (structure_query "q" (.parsed ⟨none, some "detailed", none, none⟩)).filters = v) :=
  structure_query_parsed_defaults "q" ⟨none, some "detailed", none, none⟩

/-- Invariant of the selection loop: a returned best evaluation either was
the incoming accumulator with nothing beating the incoming score, or it is
a successful evaluation of the list that beats the incoming score, is
maximal, and is the first evaluation reaching its score. -/
lemma selectLoop_spec : ∀ (l : List EvalInput) (best : Option BestEval) (bs : ℚ) (be : BestEval),
    selectLoop l best bs = some be →
    (best = some be ∧ ∀ e ∈ succEvals l, ¬ bs < e.combined_score) ∨
    (be ∈ succEvals l ∧ bs < be.combined_score ∧
      (∀ e ∈ succEvals l, e.combined_score ≤ be.combined_score) ∧
      firstAtLeast be.combined_score (succEvals l) = some be) := by
  intro l
  induction l with
  | nil => intro best bs be h; exact Or.inl ⟨h, by simp [succEvals]⟩
  | cons p rest ih =>
      intro best bs be h
      obtain ⟨c, o⟩ := p
      cases o with
      | none =>
          simp only [selectLoop] at h
          rcases ih best bs be h with ⟨h₁, h₂⟩ | ⟨h₁, h₂, h₃, h₄⟩
          · exact Or.inl ⟨h₁, by simpa [succEvals] using h₂⟩
          · exact Or.inr ⟨by simpa [succEvals] using h₁, h₂,
              by simpa [succEvals] using h₃, by simpa [succEvals] using h₄⟩
      | some sj =>
          obtain ⟨sim, j⟩ := sj
          simp only [selectLoop] at h
          by_cases hlt : bs < (mkEval c sim j).combined_score
          · rw [if_pos hlt] at h
            rcases ih _ _ be h with ⟨h₁, h₂⟩ | ⟨h₁, h₂, h₃, h₄⟩
            · obtain rfl : mkEval c sim j = be := by injection h₁
              refine Or.inr ⟨List.mem_cons_self _ _, hlt, ?_, ?_⟩
              · intro e he
                rcases List.mem_cons.mp he with rfl | he₂
                · exact le_refl _
                · exact le_of_not_lt (h₂ e he₂)
              · simp [succEvals, firstAtLeast]
            · refine Or.inr ⟨List.mem_cons_of_mem _ h₁, lt_trans hlt h₂, ?_, ?_⟩
              · intro e he
                rcases List.mem_cons.mp he with rfl | he₂
                · exact le_of_lt h₂
                · exact h₃ e he₂
              · simpa [succEvals, firstAtLeast, not_le.mpr h₂] using h₄
          · rw [if_neg hlt] at h
            rcases ih _ _ be h with ⟨h₁, h₂⟩ | ⟨h₁, h₂, h₃, h₄⟩
            · refine Or.inl ⟨h₁, ?_⟩
              intro e he
              rcases List.mem_cons.mp he with rfl | he₂
              · exact hlt
              · exact h₂ e he₂
            · have hscore : (mkEval c sim j).combined_score < be.combined_score :=
                lt_of_le_of_lt (le_of_not_lt hlt) h₂
              refine Or.inr ⟨List.mem_cons_of_mem _ h₁, h₂, ?_, ?_⟩
              · intro e he
                rcases List.mem_cons.mp he with rfl | he₂
                · exact le_of_lt hscore
                · exact h₃ e he₂
              · simpa [succEvals, firstAtLeast, not_le.mpr hscore] using h₄

/-- C9: when the selection pass returns a best evaluation, it is a
successful evaluation of the list, its combined score is maximal among all
successful evaluations, and it is the first evaluation (in original order)
whose score reaches that maximum — so of two candidates with equal combined
score, the earlier one is selected. -/
theorem selectBest_first_max (l : List EvalInput) (be : BestEval)
    (h : selectBest l = some be) :
    be ∈ succEvals l ∧ (∀ e ∈ succEvals l, e.combined_score ≤ be.combined_score) ∧
    firstAtLeast be.combined_score (succEvals l) = some be := by
  rcases selectLoop_spec l none (-1) be h with ⟨h₁, _⟩ | ⟨h₁, _, h₃, h₄⟩
  · exact absurd h₁ (by simp)
  · exact ⟨h₁, h₃, h₄⟩

/-- C9 witness: two candidates with equal combined score 0.8; the first is
selected. -/
theorem selectBest_first_max_witness :
    selectBest [(⟨"Q1", "A1"⟩, some (1, ⟨"relevant", 1, "r1"⟩)),
        (⟨"Q2", "A2"⟩, some (1, ⟨"relevant", 1, "r2"⟩))] =
      some (mkEval ⟨"Q1", "A1"⟩ 1 ⟨"relevant", 1, "r1"⟩) ∧
    (mkEval ⟨"Q1", "A1"⟩ 1 ⟨"relevant", 1, "r1"⟩ ∈
      succEvals [(⟨"Q1", "A1"⟩, some (1, ⟨"relevant", 1, "r1"⟩)),
        (⟨"Q2", "A2"⟩, some (1, ⟨"relevant", 1, "r2"⟩))] ∧
    (∀ e ∈ succEvals [(⟨"Q1", "A1"⟩, some (1, ⟨"relevant", 1, "r1"⟩)),
        (⟨"Q2", "A2"⟩, some (1, ⟨"relevant", 1, "r2"⟩))],
      e.combined_score ≤ (mkEval ⟨"Q1", "A1"⟩ 1 ⟨"relevant", 1, "r1"⟩).combined_score) ∧
    firstAtLeast (mkEval ⟨"Q1", "A1"⟩ 1 ⟨"relevant", 1, "r1"⟩).combined_score
        (succEvals [(⟨"Q1", "A1"⟩, some (1, ⟨"relevant", 1, "r1"⟩)),
          (⟨"Q2", "A2"⟩, some (1, ⟨"relevant", 1, "r2"⟩))]) =
      some (mkEval ⟨"Q1", "A1"⟩ 1 ⟨"relevant", 1, "r1"⟩)) := by
  have h : selectBest [(⟨"Q1", "A1"⟩, some (1, ⟨"relevant", 1, "r1"⟩)),
        (⟨"Q2", "A2"⟩, some (1, ⟨"relevant", 1, "r2"⟩))] =
      some (mkEval ⟨"Q1", "A1"⟩ 1 ⟨"relevant", 1, "r1"⟩) := by
    simp only [selectBest, selectLoop, mkEval, weight_llm_judge, weight_similarity]
    norm_num
  exact ⟨h, selectBest_first_max _ _ h⟩

lemma purgeExpired_append (now : ℚ) (c₁ c₂ : Cache) :
    purgeExpired now (c₁ ++ c₂) = purgeExpired now c₁ ++ purgeExpired now c₂ := by
  simp [purgeExpired]

lemma llm_judge_hit (st : JudgeState) (now : ℚ) (q a : String)
    (modelResponse : Option Judgment) (errMsg : String) (e : CacheEntry)
    (h : findEntry (cacheKey q a) (purgeExpired now st.cache) = some e) :
    llm_judge st now q a modelResponse errMsg =
      ⟨⟨purgeExpired now st.cache⟩, e.judgment, false⟩ := by
  simp [llm_judge, h]

lemma llm_judge_miss_some (st : JudgeState) (now : ℚ) (q a : String) (raw : Judgment)
    (errMsg : String)
    (h : findEntry (cacheKey q a) (purgeExpired now st.cache) = none) :
    llm_judge st now q a (some raw) errMsg =
      ⟨⟨insertEntry (cacheKey q a)
          ⟨⟨raw.judgment, normalizeConfidence raw.confidence, raw.reason⟩, now⟩
          (purgeExpired now st.cache)⟩,
        ⟨raw.judgment, normalizeConfidence raw.confidence, raw.reason⟩, true⟩ := by
  simp [llm_judge, h]

lemma llm_judge_miss_none (st : JudgeState) (now : ℚ) (q a errMsg : String)
    (h : findEntry (cacheKey q a) (purgeExpired now st.cache) = none) :
    llm_judge st now q a none errMsg =
      ⟨⟨purgeExpired now st.cache⟩, errorJudgment errMsg, true⟩ := by
  simp [llm_judge, h]

lemma findEntry_insertEntry_self (c : Cache) (k : String) (e : CacheEntry) :
    findEntry k (insertEntry k e c) = some e := by
  induction c with
  | nil => simp [insertEntry, findEntry]
  | cons p t ih =>
      obtain ⟨k₂, e₂⟩ := p
      by_cases hk : k₂ = k
      · simp [insertEntry, hk, findEntry]
      · simp [insertEntry, hk, findEntry, ih]

/-- C3 counterexample: with an empty cache, a failing judge call returns the
fixed fallback but leaves the cache empty, so an immediately repeated call
for the identical pair invokes the model again — the fallback is not
cached. -/
theorem llm_judge_fallback_not_cached_cex :
    (llm_judge ⟨[]⟩ 0 "q" "a" none "boom").judgment = errorJudgment "boom" ∧
    (llm_judge ⟨[]⟩ 0 "q" "a" none "boom").state.cache = [] ∧
    (llm_judge (llm_judge ⟨[]⟩ 0 "q" "a" none "boom").state 0 "q" "a" none "boom").invokedModel =
      true := by
  decide

/-- C3 amended: on a judge failure (with no fresh cached entry for the
pair), `llm_judge` returns the fixed fallback judgment but does NOT store
it: the cache is left exactly as the purge left it, and a repeated call for
the identical pair invokes the model again. -/
theorem llm_judge_fallback_not_cached (st : JudgeState) (now : ℚ) (q a err : String)
    (hmiss : findEntry (cacheKey q a) (purgeExpired now st.cache) = none) :
    (llm_judge st now q a none err).judgment = errorJudgment err ∧
    (llm_judge st now q a none err).state.cache = purgeExpired now st.cache ∧
    (llm_judge (llm_judge st now q a none err).state now q a none err).invokedModel = true := by
  have h₁ : llm_judge st now q a none err =
      ⟨⟨purgeExpired now st.cache⟩, errorJudgment err, true⟩ := by
    simp [llm_judge, hmiss]
  have hmiss₂ : findEntry (cacheKey q a) (purgeExpired now (purgeExpired now st.cache)) = none :=
    findEntry_filter_none _ _ _ hmiss
  refine ⟨by rw [h₁], by rw [h₁], ?_⟩
  rw [h₁]
  simp [llm_judge, hmiss₂]

/-- C3 amended, witness at the empty cache. -/
theorem llm_judge_fallback_not_cached_witness :
    (llm_judge ⟨[]⟩ 0 "q" "a" none "e").judgment = errorJudgment "e" ∧
    (llm_judge ⟨[]⟩ 0 "q" "a" none "e").state.cache = purgeExpired 0 [] ∧
    (llm_judge (llm_judge ⟨[]⟩ 0 "q" "a" none "e").state 0 "q" "a" none "e").invokedModel =
      true :=
  llm_judge_fallback_not_cached ⟨[]⟩ 0 "q" "a" "e" (by rfl)

/-- C4: a successful judgment is stored under the pair's key with the call
timestamp and returned (the model was invoked); every entry of the state
after a later call is fresh at that call's time (the purge runs before the
lookup); a repeated call for the identical pair within the TTL returns the
stored judgment unchanged without invoking the model; and once the TTL has
passed, the repeated call invokes the model again. -/
theorem llm_judge_ttl_cache (st : JudgeState) (now₁ now₂ : ℚ) (q a err₁ err₂ : String)
    (raw : Judgment) (model₂ : Option Judgment)
    (hmiss : findEntry (cacheKey q a) (purgeExpired now₁ st.cache) = none) :
    (llm_judge st now₁ q a (some raw) err₁).judgment =
      ⟨raw.judgment, normalizeConfidence raw.confidence, raw.reason⟩ ∧
    (llm_judge st now₁ q a (some raw) err₁).invokedModel = true ∧
    findEntry (cacheKey q a) (llm_judge st now₁ q a (some raw) err₁).state.cache =
      some ⟨⟨raw.judgment, normalizeConfidence raw.confidence, raw.reason⟩, now₁⟩ ∧
    (∀ p ∈ (llm_judge (llm_judge st now₁ q a (some raw) err₁).state now₂ q a model₂
        err₂).state.cache, now₂ - p.2.timestamp ≤ cache_ttl) ∧
    (now₂ - now₁ ≤ cache_ttl →
      (llm_judge (llm_judge st now₁ q a (some raw) err₁).state now₂ q a model₂ err₂).judgment =
        (llm_judge st now₁ q a (some raw) err₁).judgment ∧
      (llm_judge (llm_judge st now₁ q a (some raw) err₁).state now₂ q a model₂
        err₂).invokedModel = false) ∧
    (cache_ttl < now₂ - now₁ →
      (llm_judge (llm_judge st now₁ q a (some raw) err₁).state now₂ q a model₂
        err₂).invokedModel = true) := by
  have h₁ := llm_judge_miss_some st now₁ q a raw err₁ hmiss
  have happ : insertEntry (cacheKey q a)
      ⟨⟨raw.judgment, normalizeConfidence raw.confidence, raw.reason⟩, now₁⟩
      (purgeExpired now₁ st.cache) =
      purgeExpired now₁ st.cache ++
        [(cacheKey q a,
          ⟨⟨raw.judgment, normalizeConfidence raw.confidence, raw.reason⟩, now₁⟩)] :=
    insertEntry_of_none _ _ _ hmiss
  have hnone₂ : findEntry (cacheKey q a) (purgeExpired now₂ (purgeExpired now₁ st.cache)) =
      none := findEntry_filter_none _ _ _ hmiss
  refine ⟨by rw [h₁], by rw [h₁], ?_, llm_judge_state_fresh _ _ _ _ _ _, ?_, ?_⟩
  · rw [h₁]
    exact findEntry_insertEntry_self _ _ _
  · intro hfresh
    have hkeep : purgeExpired now₂
        [(cacheKey q a,
          (⟨⟨raw.judgment, normalizeConfidence raw.confidence, raw.reason⟩, now₁⟩ :
            CacheEntry))] =
        [(cacheKey q a,
          ⟨⟨raw.judgment, normalizeConfidence raw.confidence, raw.reason⟩, now₁⟩)] := by
      simp only [purgeExpired, List.filter_cons, List.filter_nil]
      rw [if_pos (decide_eq_true hfresh)]
    have hfind₀ : findEntry (cacheKey q a)
        (purgeExpired now₂ (insertEntry (cacheKey q a)
          ⟨⟨raw.judgment, normalizeConfidence raw.confidence, raw.reason⟩, now₁⟩
          (purgeExpired now₁ st.cache))) =
        some ⟨⟨raw.judgment, normalizeConfidence raw.confidence, raw.reason⟩, now₁⟩ := by
      rw [happ, purgeExpired_append, findEntry_append_of_none _ _ hnone₂, hkeep]
      simp [findEntry]
    have hfind : findEntry (cacheKey q a)
        (purgeExpired now₂ (llm_judge st now₁ q a (some raw) err₁).state.cache) =
        some ⟨⟨raw.judgment, normalizeConfidence raw.confidence, raw.reason⟩, now₁⟩ := by
      rw [h₁]
      exact hfind₀
    have h₂ := llm_judge_hit (llm_judge st now₁ q a (some raw) err₁).state now₂ q a model₂
      err₂ _ hfind
    exact ⟨by rw [h₂, h₁], by rw [h₂]⟩
  · intro hexp
    have hdrop : purgeExpired now₂
        [(cacheKey q a,
          (⟨⟨raw.judgment, normalizeConfidence raw.confidence, raw.reason⟩, now₁⟩ :
            CacheEntry))] = [] := by
      simp only [purgeExpired, List.filter_cons, List.filter_nil]
      rw [if_neg]
      simp only [decide_eq_true_eq]
      exact not_le.mpr hexp
    have hfind₀ : findEntry (cacheKey q a)
        (purgeExpired now₂ (insertEntry (cacheKey q a)
          ⟨⟨raw.judgment, normalizeConfidence raw.confidence, raw.reason⟩, now₁⟩
          (purgeExpired now₁ st.cache))) = none := by
      rw [happ, purgeExpired_append, findEntry_append_of_none _ _ hnone₂, hdrop]
      rfl
    have hfind : findEntry (cacheKey q a)
        (purgeExpired now₂ (llm_judge st now₁ q a (some raw) err₁).state.cache) = none := by
      rw [h₁]
      exact hfind₀
    cases model₂ with
    | none => rw [llm_judge_miss_none _ _ _ _ _ hfind]
    | some m₂ => rw [llm_judge_miss_some _ _ _ _ _ _ hfind]

/-- C4 witness: empty cache, a successful judgment at time 0, re-queried at
time 0. -/
theorem llm_judge_ttl_cache_witness :
    (llm_judge ⟨[]⟩ 0 "q" "a" (some ⟨"relevant", 1, "r"⟩) "").judgment =
      ⟨(Judgment.mk "relevant" 1 "r").judgment,
        normalizeConfidence (Judgment.mk "relevant" 1 "r").confidence,
        (Judgment.mk "relevant" 1 "r").reason⟩ ∧
    (llm_judge ⟨[]⟩ 0 "q" "a" (some ⟨"relevant", 1, "r"⟩) "").invokedModel = true ∧
    findEntry (cacheKey "q" "a") (llm_judge ⟨[]⟩ 0 "q" "a"
        (some ⟨"relevant", 1, "r"⟩) "").state.cache =
      some ⟨⟨(Judgment.mk "relevant" 1 "r").judgment,
        normalizeConfidence (Judgment.mk "relevant" 1 "r").confidence,
        (Judgment.mk "relevant" 1 "r").reason⟩, 0⟩ ∧
    (∀ p ∈ (llm_judge (llm_judge ⟨[]⟩ 0 "q" "a" (some ⟨"relevant", 1, "r"⟩) "").state 0 "q" "a"
        none "").state.cache, (0 : ℚ) - p.2.timestamp ≤ cache_ttl) ∧
    ((0 : ℚ) - 0 ≤ cache_ttl →
      (llm_judge (llm_judge ⟨[]⟩ 0 "q" "a" (some ⟨"relevant", 1, "r"⟩) "").state 0 "q" "a"
          none "").judgment =
        (llm_judge ⟨[]⟩ 0 "q" "a" (some ⟨"relevant", 1, "r"⟩) "").judgment ∧
      (llm_judge (llm_judge ⟨[]⟩ 0 "q" "a" (some ⟨"relevant", 1, "r"⟩) "").state 0 "q" "a"
          none "").invokedModel = false) ∧
    (cache_ttl < (0 : ℚ) - 0 →
      (llm_judge (llm_judge ⟨[]⟩ 0 "q" "a" (some ⟨"relevant", 1, "r"⟩) "").state 0 "q" "a"
          none "").invokedModel = true) :=
  llm_judge_ttl_cache ⟨[]⟩ 0 0 "q" "a" "" "" ⟨"relevant", 1, "r"⟩ none (by rfl)

/-- C7 counterexample: the two distinct pairs ("a|b", "c") and ("a", "b|c")
share the cache key "a|b|c"; after a judgment is stored for the first pair,
a call for the second pair returns the first pair's judgment from the cache
without invoking the model. -/
theorem cacheKey_collision_cex :
    (("a|b", "c") : String × String) ≠ ("a", "b|c") ∧
    cacheKey "a|b" "c" = cacheKey "a" "b|c" ∧
    (llm_judge (llm_judge ⟨[]⟩ 0 "a|b" "c" (some ⟨"relevant", 1, "r1"⟩) "").state 0 "a" "b|c"
        (some ⟨"irrelevant", 0, "r2"⟩) "").judgment =
      (llm_judge ⟨[]⟩ 0 "a|b" "c" (some ⟨"relevant", 1, "r1"⟩) "").judgment ∧
    (llm_judge (llm_judge ⟨[]⟩ 0 "a|b" "c" (some ⟨"relevant", 1, "r1"⟩) "").state 0 "a" "b|c"
        (some ⟨"irrelevant", 0, "r2"⟩) "").invokedModel = false := by
  have h₁ := llm_judge_miss_some ⟨[]⟩ 0 "a|b" "c" ⟨"relevant", 1, "r1"⟩ "" (by rfl)
  have hp : purgeExpired 0
      (llm_judge ⟨[]⟩ 0 "a|b" "c" (some ⟨"relevant", 1, "r1"⟩) "").state.cache =
      [(cacheKey "a|b" "c",
        ⟨⟨"relevant", normalizeConfidence 1, "r1"⟩, 0⟩)] := by
    rw [h₁]
    show purgeExpired 0
        [(cacheKey "a|b" "c", ⟨⟨"relevant", normalizeConfidence 1, "r1"⟩, 0⟩)] = _
    simp only [purgeExpired, List.filter_cons, List.filter_nil]
    rw [if_pos (decide_eq_true (by norm_num [cache_ttl]))]
  have hfind₂ : findEntry (cacheKey "a" "b|c") (purgeExpired 0
      (llm_judge ⟨[]⟩ 0 "a|b" "c" (some ⟨"relevant", 1, "r1"⟩) "").state.cache) =
      some ⟨⟨"relevant", normalizeConfidence 1, "r1"⟩, 0⟩ := by
    rw [hp]
    rfl
  have h₂ := llm_judge_hit (llm_judge ⟨[]⟩ 0 "a|b" "c" (some ⟨"relevant", 1, "r1"⟩) "").state
    0 "a" "b|c" (some ⟨"irrelevant", 0, "r2"⟩) "" _ hfind₂
  exact ⟨by decide, by decide, by rw [h₂, h₁], by rw [h₂]⟩

lemma append_bar_inj : ∀ (l₁ : List Char) {r₁ l₂ r₂ : List Char}, '|' ∉ l₁ → '|' ∉ l₂ →
    l₁ ++ '|' :: r₁ = l₂ ++ '|' :: r₂ → l₁ = l₂ ∧ r₁ = r₂ := by
  intro l₁
  induction l₁ with
  | nil =>
      intro r₁ l₂ r₂ h₁ h₂ heq
      cases l₂ with
      | nil => simpa using heq
      | cons d u =>
          simp only [List.nil_append, List.cons_append, List.cons.injEq] at heq
          exact absurd (by rw [← heq.1]; exact List.mem_cons_self _ _) h₂
  | cons c t ih =>
      intro r₁ l₂ r₂ h₁ h₂ heq
      cases l₂ with
      | nil =>
          simp only [List.cons_append, List.nil_append, List.cons.injEq] at heq
          exact absurd (by rw [heq.1]; exact List.mem_cons_self _ _) h₁
      | cons d u =>
          simp only [List.cons_append, List.cons.injEq] at heq
          obtain ⟨rfl, htail⟩ := heq
          have h₃ : '|' ∉ t := fun hm => h₁ (List.mem_cons_of_mem _ hm)
          have h₄ : '|' ∉ u := fun hm => h₂ (List.mem_cons_of_mem _ hm)
          obtain ⟨hl, hr⟩ := ih h₃ h₄ htail
          exact ⟨by rw [hl], hr⟩

lemma cacheKey_data (q a : String) : (cacheKey q a).data = q.data ++ '|' :: a.data := by
  have hbar : ("|" : String).data = ['|'] := rfl
  simp [cacheKey, String.data_append, hbar]

/-- C7 amended: the cache key is the concatenation `query + "|" + answer`,
so pairs whose composite keys coincide share one entry (see the
counterexample); but whenever the two queries contain no "|" character the
key is injective, and a judgment stored for one pair is never found under
the other pair's key. -/
theorem cacheKey_pairs_distinct (q₁ a₁ q₂ a₂ : String)
    (hq₁ : '|' ∉ q₁.data) (hq₂ : '|' ∉ q₂.data)
    (hne : ¬(q₁ = q₂ ∧ a₁ = a₂)) :
    cacheKey q₁ a₁ ≠ cacheKey q₂ a₂ ∧
    ∀ e : CacheEntry, findEntry (cacheKey q₂ a₂) [(cacheKey q₁ a₁, e)] = none := by
  have hkey : cacheKey q₁ a₁ ≠ cacheKey q₂ a₂ := by
    intro heq
    have hd := congrArg String.data heq
    rw [cacheKey_data, cacheKey_data] at hd
    obtain ⟨h₁, h₂⟩ := append_bar_inj q₁.data hq₁ hq₂ hd
    exact hne ⟨String.ext h₁, String.ext h₂⟩
  exact ⟨hkey, fun e => by simp [findEntry, hkey]⟩

/-- C7 amended, witness: the pairs ("a", "b") and ("a", "c"). -/
theorem cacheKey_pairs_distinct_witness :
    cacheKey "a" "b" ≠ cacheKey "a" "c" ∧
    ∀ e : CacheEntry, findEntry (cacheKey "a" "c") [(cacheKey "a" "b", e)] = none :=
  cacheKey_pairs_distinct "a" "b" "a" "c" (by decide) (by decide) (by decide)

/-- C8: provided every stored cache entry is in range (as the code
maintains), every judgment returned by `llm_judge` has confidence in [0,1],
the resulting state keeps the invariant, and the normalization of a parsed
confidence is exactly the clamp `max 0 (min 1 c)` (so a raw -0.3 becomes 0
and a raw 1.7 becomes 1); the error fallback carries confidence 0. -/
theorem llm_judge_confidence_clamped (st : JudgeState) (now : ℚ) (q a : String)
    (modelResponse : Option Judgment) (errMsg : String)
    (hinv : ∀ p ∈ st.cache, 0 ≤ p.2.judgment.confidence ∧ p.2.judgment.confidence ≤ 1) :
    (0 ≤ (llm_judge st now q a modelResponse errMsg).judgment.confidence ∧
      (llm_judge st now q a modelResponse errMsg).judgment.confidence ≤ 1) ∧
    (∀ p ∈ (llm_judge st now q a modelResponse errMsg).state.cache,
      0 ≤ p.2.judgment.confidence ∧ p.2.judgment.confidence ≤ 1) ∧
    (∀ c : ℚ, normalizeConfidence c = max 0 (min 1 c)) := by
  have hclamp : ∀ c : ℚ, normalizeConfidence c = max 0 (min 1 c) := by
    intro c
    unfold normalizeConfidence
    split
    · next hc => rw [min_eq_right hc.2, max_eq_right hc.1]
    · rfl
  have hbounds : ∀ c : ℚ, 0 ≤ normalizeConfidence c ∧ normalizeConfidence c ≤ 1 := by
    intro c
    rw [hclamp]
    exact ⟨le_max_left _ _, max_le (by norm_num) (min_le_left _ _)⟩
  have hpurged : ∀ p ∈ purgeExpired now st.cache,
      0 ≤ p.2.judgment.confidence ∧ p.2.judgment.confidence ≤ 1 :=
    fun p hp => hinv p (List.mem_filter.mp hp).1
  refine ⟨?_, ?_, hclamp⟩
  · rcases hfind : findEntry (cacheKey q a) (purgeExpired now st.cache) with _ | e₀
    · cases modelResponse with
      | none =>
          simp only [llm_judge, hfind]
          constructor <;> norm_num [errorJudgment]
      | some raw =>
          simp only [llm_judge, hfind]
          exact hbounds raw.confidence
    · simp only [llm_judge, hfind]
      exact hpurged _ (findEntry_mem _ _ _ hfind)
  · rcases hfind : findEntry (cacheKey q a) (purgeExpired now st.cache) with _ | e₀
    · cases modelResponse with
      | none =>
          simp only [llm_judge, hfind]
          exact hpurged
      | some raw =>
          simp only [llm_judge, hfind]
          intro p hp
          rcases mem_insertEntry _ _ _ p hp with h | h
          · rw [h]
            exact hbounds raw.confidence
          · exact hpurged p h
    · simp only [llm_judge, hfind]
      exact hpurged

/-- C8 witness: an out-of-range raw confidence of 1.7 on the empty cache,
plus the concrete clamp evaluations for 1.7 and -0.3. -/
theorem llm_judge_confidence_clamped_witness :
    ((0 ≤ (llm_judge ⟨[]⟩ 0 "q" "a" (some ⟨"relevant", 17/10, "r"⟩) "").judgment.confidence ∧
      (llm_judge ⟨[]⟩ 0 "q" "a" (some ⟨"relevant", 17/10, "r"⟩) "").judgment.confidence ≤ 1) ∧
    (∀ p ∈ (llm_judge ⟨[]⟩ 0 "q" "a" (some ⟨"relevant", 17/10, "r"⟩) "").state.cache,
      0 ≤ p.2.judgment.confidence ∧ p.2.judgment.confidence ≤ 1) ∧
    (∀ c : ℚ, normalizeConfidence c = max 0 (min 1 c))) ∧
    normalizeConfidence (17/10) = 1 ∧ normalizeConfidence (-(3/10)) = 0 := by
  refine ⟨llm_judge_confidence_clamped ⟨[]⟩ 0 "q" "a" _ "" (by simp), ?_, ?_⟩
  · simp only [normalizeConfidence]
    rw [if_neg (by norm_num)]
    norm_num
  · simp only [normalizeConfidence]
    rw [if_neg (by norm_num)]
    norm_num

lemma generate_relevant_eq (md : MatchData) (llm : Option String) :
    generate ⟨"relevant", some md⟩ llm =
      some ⟨md.answer, "verified_answer", md.confidence,
        some (md.metrics_llm_judge, md.metrics_similarity)⟩ := rfl

lemma generate_partial_eq (md : MatchData) (llm : Option String) :
    generate ⟨"partial", some md⟩ llm = some (generateFallback "partial" llm) := rfl

lemma generate_no_match_eq (omd : Option MatchData) (llm : Option String) :
    generate ⟨"no_match", omd⟩ llm = some (generateFallback "no_match" llm) := rfl

/-- C2: `generate` composed with `check_match` never raises — for every
resolver input and generative-call outcome it returns a result record
(answer, source, confidence) — and when the generative call fails on a
non-`relevant` status, the result is the terminal fallback: the fixed
apology string with source `error` and confidence 0. -/
theorem generate_total (topOk : Bool) (qs : QueryStructure) (rag : List EvalInput)
    (llm : Option String) :
    (generate (check_match topOk qs rag) llm).isSome = true ∧
    (llm = none → (check_match topOk qs rag).status ≠ "relevant" →
      generate (check_match topOk qs rag) llm =
        some ⟨apologyMessage, "error", 0, none⟩) := by
  have hshape : check_match topOk qs rag = ⟨"no_match", none⟩ ∨
      ∃ be, check_match topOk qs rag = ⟨classify be, some (mkMatchData be)⟩ := by
    cases topOk with
    | false => exact Or.inl (by simp [check_match])
    | true =>
        cases rag with
        | nil => exact Or.inl (by simp [check_match, check_match_core])
        | cons p t =>
            rcases hsel : selectBest (effectiveResults qs (p :: t)) with _ | be
            · exact Or.inl (by simp [check_match, check_match_core, hsel])
            · exact Or.inr ⟨be, by simp [check_match, check_match_core, hsel]⟩
  rcases hshape with hr | ⟨be, hr⟩
  · rw [hr, generate_no_match_eq]
    refine ⟨rfl, ?_⟩
    intro hl _
    rw [hl]
    rfl
  · rw [hr]
    by_cases h₁ : be.llm_judge.judgment = "relevant" ∧ judge_threshold ≤ be.llm_judge.confidence
    · have hcl : classify be = "relevant" := by simp [classify, h₁]
      rw [hcl, generate_relevant_eq]
      refine ⟨rfl, ?_⟩
      intro _ hst
      exact absurd rfl hst
    · by_cases h₂ : 3/5 ≤ be.combined_score
      · have hcl : classify be = "partial" := by simp [classify, h₁, h₂]
        rw [hcl, generate_partial_eq]
        refine ⟨rfl, ?_⟩
        intro hl _
        rw [hl]
        rfl
      · have hcl : classify be = "no_match" := by simp [classify, h₁, h₂]
        rw [hcl, generate_no_match_eq]
        refine ⟨rfl, ?_⟩
        intro hl _
        rw [hl]
        rfl

/-- C2 witness: a failed top-level resolution and a failed generative call
produce the terminal apology fallback. -/
theorem generate_total_witness :
    (generate (check_match false (QueryStructure.make "q" "standard" "general" none) [])
      none).isSome = true ∧
    ((none : Option String) = none →
      (check_match false (QueryStructure.make "q" "standard" "general" none) []).status ≠
        "relevant" →
      generate (check_match false (QueryStructure.make "q" "standard" "general" none) []) none =
        some ⟨apologyMessage, "error", 0, none⟩) :=
  generate_total false (QueryStructure.make "q" "standard" "general" none) [] none

end RagOncology
